import Mathlib

/-!
Verification of the FnordMetric query-plan builder (`queryplan.cc`) and the
metricdb HTTP handlers (`httpapi.cc`), via a shallow embedding.

Mutable AST pointers become immutable `ASTNode` values with explicit state
passing: a C++ function that rewrites a node in place is modelled as a pure
function returning the rewritten node, and a function that appends to a
target select list threads the list of that node's children.  C++ `assert`
failures (process aborts) are modelled as `Except.error (Abort.mk msg)`,
with `msg` naming the asserted condition.  Collaborators whose sources are
outside the excerpt (symbol table, expression compiler, table repository,
leaf plan builders) are threaded explicitly as a `Collabs` record, per the
spec's external-interface contracts.
-/

namespace FnordMetric

/-- AST node tags, from the spec's closed tag set (`astnode.h` is not part
of the excerpt; the tags used by `queryplan.cc` are taken verbatim). -/
inductive NodeType where
  | T_SELECT
  | T_SELECT_LIST
  | T_GROUP_BY
  | T_COLUMN_NAME
  | T_DERIVED_COLUMN
  | T_RESOLVED_COLUMN
  | T_METHOD_CALL
  | T_LITERAL
  | T_SERIES
  | T_SERIES_NAME
  | T_DRAW
  | T_LIMIT
  | T_FROM
  | T_TABLE_NAME
deriving DecidableEq, Repr

/-- Token kinds. Modelled from the spec: `Token` lives outside the excerpt;
`queryplan.cc` uses the chart tokens T_BAR/T_LINE/T_AREA and identifier
text; T_PIE stands for any token outside the closed chart set. -/
inductive TokenType where
  | T_BAR
  | T_LINE
  | T_AREA
  | T_PIE
  | T_IDENTIFIER
  | T_NUMERIC
deriving DecidableEq, Repr

/-- A token payload: kind plus identifier/literal text. -/
structure Token where
  type : TokenType
  str : String
deriving DecidableEq, Repr

/-- A statement/expression tree node: tag, optional token, optional resolved
column index (set by `setID`, meaningful only for T_RESOLVED_COLUMN), and
ordered children.  Value semantics: `deepCopy` of the C++ node is the
identity here, and in-place mutation becomes returning an updated value. -/
inductive ASTNode where
  | mk (type : NodeType) (token : Option Token) (id : Option Int)
       (children : List ASTNode)

def ASTNode.type : ASTNode → NodeType
  | ASTNode.mk t _ _ _ => t

def ASTNode.token : ASTNode → Option Token
  | ASTNode.mk _ tok _ _ => tok

def ASTNode.nodeId : ASTNode → Option Int
  | ASTNode.mk _ _ i _ => i

def ASTNode.children : ASTNode → List ASTNode
  | ASTNode.mk _ _ _ cs => cs

/-- A symbol-table entry; only the aggregate flag matters to the builder. -/
structure Symbol where
  isAggregate : Bool
deriving DecidableEq, Repr

/-- A failed C++ `assert` (process abort); `msg` names the asserted
condition or the out-of-bounds access. -/
structure Abort where
  msg : String
deriving DecidableEq, Repr

/-- Chart types of `DrawStatement::kDrawStatementType`. -/
inductive DrawStatementType where
  | T_BAR_CHART
  | T_LINE_CHART
  | T_AREA_CHART
deriving DecidableEq, Repr

/-- An executable plan node.  A compiled expression is modelled as the
compiled subtree paired with its scratchpad length, per the expression
compiler's contract. -/
inductive Plan where
  | tableScan (columns : List String)
  | tablelessSelect (columns : List String)
  | groupBy (columns : List String) (selectExpr : ASTNode × Nat)
            (groupExpr : ASTNode × Nat) (selectScratchpadLen : Nat)
            (child : Plan)
  | limitClause (child : Plan)
  | seriesStatement (columns : List String) (nameExpr : ASTNode × Nat)
                    (child : Plan)
  | drawStatement (chartType : DrawStatementType)

/-- Embeds `Executable::getColumns()`.  GroupBy/SeriesStatement/TableScan store the
column names handed to their constructors; LimitClause (source outside the
excerpt) delegates to its child per the spec's output-columns contract;
DrawStatement exposes none. -/
def Plan.getColumns : Plan → List String
  | Plan.tableScan cols => cols
  | Plan.tablelessSelect cols => cols
  | Plan.groupBy cols _ _ _ _ => cols
  | Plan.limitClause child => Plan.getColumns child
  | Plan.seriesStatement cols _ _ => cols
  | Plan.drawStatement _ => []

/-- Whether the top plan node is a GroupBy. -/
def Plan.isGroupBy : Plan → Bool
  | Plan.groupBy _ _ _ _ _ => true
  | _ => false

/-- The collaborators of the builder, per the spec's external interfaces:
symbol table, expression compiler (only the scratch-slot count matters;
the compiled form is the tree itself), and the two leaf plan builders
(TableScan::build / TablelessSelect::build, sources outside the excerpt),
abstracted as the output columns they would report, if they apply. -/
structure Collabs where
  symtab : String → Option Symbol
  scratch : ASTNode → Nat
  tableScanBuild : ASTNode → Option (List String)
  tablelessBuild : ASTNode → Option (List String)

/-! ## `QueryPlan::buildInternalSelectList` (select-list push-down) -/

mutual
/-- Embeds `QueryPlan::buildInternalSelectList(node, target_select_list)`.
Returns (rewritten node, updated target-select-list children, C++ return
value).  The candidate search loop in the source has an empty body
(`// FIXPAUL`), so `col_index` keeps its initial `-1` and the
`col_index < 0` branch appends a new T_DERIVED_COLUMN wrapping a deep copy
of the (pre-mutation) node; the node itself is then retagged
T_RESOLVED_COLUMN with its id set to the new tail index. -/
def buildInternalSelectList : ASTNode → List ASTNode →
    ASTNode × List ASTNode × Bool
  | ASTNode.mk t tok idx cs, target =>
    if t = NodeType.T_COLUMN_NAME then
      let col_index0 : Int := -1
      -- the search over target's children is a no-op in the source
      if col_index0 < 0 then
        let derived := ASTNode.mk NodeType.T_DERIVED_COLUMN none none
          [ASTNode.mk t tok idx cs]
        let target2 := target ++ [derived]
        let col_index : Int := (target2.length : Int) - 1
        (ASTNode.mk NodeType.T_RESOLVED_COLUMN tok (some col_index) cs,
         target2, true)
      else
        (ASTNode.mk NodeType.T_RESOLVED_COLUMN tok (some col_index0) cs,
         target, true)
    else
      let r := pushDownChildren cs target
      (ASTNode.mk t tok idx r.1, r.2.1, r.2.2)

/-- The recursive case of `buildInternalSelectList`: fold the rewrite over
the children in order, stopping at the first child call returning false
(the remaining children are then left unrewritten, as in the source). -/
def pushDownChildren : List ASTNode → List ASTNode →
    List ASTNode × List ASTNode × Bool
  | [], target => ([], target, true)
  | c :: cs, target =>
    let r := buildInternalSelectList c target
    if r.2.2 then
      let r2 := pushDownChildren cs r.2.1
      (r.1 :: r2.1, r2.2.1, r2.2.2)
    else
      (r.1 :: cs, r.2.1, false)
end

/-! ## Aggregate detection -/

/-- Embeds `QueryPlan::hasGroupByClause`: true iff the node is a T_SELECT with at
least two children, one of which is tagged T_GROUP_BY. -/
def hasGroupByClause (ast : ASTNode) : Bool :=
  if ast.type ≠ NodeType.T_SELECT ∨ ast.children.length < 2 then false
  else ast.children.any (fun c => decide (c.type = NodeType.T_GROUP_BY))

mutual
/-- Embeds `QueryPlan::hasAggregationExpression`: a T_METHOD_CALL must carry a
token (assert) naming a known symbol (assert); an aggregate symbol answers
true, otherwise the children are searched depth-first. -/
def hasAggregationExpression (symtab : String → Option Symbol) :
    ASTNode → Except Abort Bool
  | ASTNode.mk t tok _ cs =>
    if t = NodeType.T_METHOD_CALL then
      match tok with
      | none => Except.error (Abort.mk "getToken() != nullptr")
      | some token =>
        match symtab token.str with
        | none => Except.error (Abort.mk "symbol != nullptr")
        | some sym =>
          if sym.isAggregate then Except.ok true
          else hasAggregationExpressionList symtab cs
    else hasAggregationExpressionList symtab cs

/-- The child loop of `hasAggregationExpression`, short-circuiting on the
first aggregate found and propagating the first abort. -/
def hasAggregationExpressionList (symtab : String → Option Symbol) :
    List ASTNode → Except Abort Bool
  | [] => Except.ok false
  | c :: cs =>
    match hasAggregationExpression symtab c with
    | Except.error e => Except.error e
    | Except.ok true => Except.ok true
    | Except.ok false => hasAggregationExpressionList symtab cs
end

/-- Embeds `QueryPlan::hasAggregationInSelectList`: false for a node that is not a
T_SELECT with at least two children; otherwise child 0 must be the select
list (assert) and is searched for aggregate calls. -/
def hasAggregationInSelectList (symtab : String → Option Symbol)
    (ast : ASTNode) : Except Abort Bool :=
  if ast.type ≠ NodeType.T_SELECT ∨ ast.children.length < 2 then
    Except.ok false
  else
    match ast.children with
    | [] => Except.error (Abort.mk "unreachable: length >= 2")
    | sl :: _ =>
      if sl.type = NodeType.T_SELECT_LIST then
        hasAggregationExpression symtab sl
      else Except.error (Abort.mk "select_list type == T_SELECT_LIST")

/-! ## `QueryPlan::buildDrawStatement` -/

/-- Embeds `QueryPlan::buildDrawStatement`: maps the statement token's kind over
the closed set {T_BAR, T_LINE, T_AREA}; any other kind reaches the switch
default, which is `assert(888 == 0)` (a process abort, `// FIXPAUL add
error`).  A null token would be dereferenced, also modelled as an abort. -/
def buildDrawStatement (ast : ASTNode) : Except Abort Plan :=
  match ast.token with
  | none => Except.error (Abort.mk "null token dereference")
  | some tok =>
    match tok.type with
    | TokenType.T_BAR =>
      Except.ok (Plan.drawStatement DrawStatementType.T_BAR_CHART)
    | TokenType.T_LINE =>
      Except.ok (Plan.drawStatement DrawStatementType.T_LINE_CHART)
    | TokenType.T_AREA =>
      Except.ok (Plan.drawStatement DrawStatementType.T_AREA_CHART)
    | _ => Except.error (Abort.mk "888 == 0")

/-! ## Limit clause (collaborator) -/

/-- Whether a T_LIMIT clause appears among the statement's children. -/
def hasLimitClause (ast : ASTNode) : Bool :=
  ast.children.any (fun c => decide (c.type = NodeType.T_LIMIT))

/-- Remove the first child satisfying the tag test (the `removeChild` of
the scan loops in the source). -/
def removeFirstOfType (t : NodeType) : List ASTNode → List ASTNode
  | [] => []
  | c :: cs =>
    if c.type = t then cs else c :: removeFirstOfType t cs

/-- Modelled from the spec: `LimitClause::build` (limitclause.cc is not in
the excerpt) — "LIMIT clause present → wrap the inner plan (built by
recursing on the statement with the limit clause removed) in a LimitClause
node"; otherwise it does not apply (nullptr). -/
def limitBuildF (recur : ASTNode → Except Abort Plan) (ast : ASTNode) :
    Except Abort (Option Plan) :=
  if hasLimitClause ast then
    match recur (ASTNode.mk ast.type ast.token ast.nodeId
        (removeFirstOfType NodeType.T_LIMIT ast.children)) with
    | Except.ok p => Except.ok (some (Plan.limitClause p))
    | Except.error e => Except.error e
  else Except.ok none

/-! ## `QueryPlan::buildGroupBy` -/

/-- The inner loop of `buildGroupBy`'s group-by handling: each grouping
expression is deep-copied, pushed down into the (threaded) child select
list, and appended to the synthetic group-expression container. -/
def pushGroupExprs : List ASTNode → List ASTNode → List ASTNode →
    List ASTNode × List ASTNode
  | [], slc, acc => (slc, acc)
  | ge :: ges, slc, acc =>
    let r := buildInternalSelectList ge slc
    pushGroupExprs ges r.2.1 (acc ++ [r.1])

/-- The outer loop of `buildGroupBy` over the statement's children: each
T_GROUP_BY clause has its expressions pushed down and collected, and the
first T_GROUP_BY among the child statement's children is removed.  The
child statement's children are represented by their tail (`tail`): its
head is the spliced-in child select list, tagged T_SELECT_LIST, which the
removal scan always skips. -/
def processGroupBys : List ASTNode → List ASTNode → List ASTNode →
    List ASTNode → List ASTNode × List ASTNode × List ASTNode
  | [], slc, acc, tail => (slc, acc, tail)
  | c :: cs, slc, acc, tail =>
    if c.type = NodeType.T_GROUP_BY then
      let r := pushGroupExprs c.children slc acc
      processGroupBys cs r.1 r.2 (removeFirstOfType NodeType.T_GROUP_BY tail)
    else processGroupBys cs slc acc tail

/-- The tree-rewriting front half of `QueryPlan::buildGroupBy`: child 0
must be the select list (assert); a deep copy of it is pushed down into a
fresh child select list; the statement is deep-copied with the child
select list spliced in at position 0; every T_GROUP_BY clause is processed
per `processGroupBys`.  Returns (rewritten outer select list, synthetic
T_GROUP_BY container of rewritten grouping expressions, child statement). -/
def buildGroupByCore (ast : ASTNode) :
    Except Abort (ASTNode × ASTNode × ASTNode) :=
  match ast.children with
  | [] => Except.error (Abort.mk "getChildren()[0] out of bounds")
  | sl0 :: rest =>
    if sl0.type = NodeType.T_SELECT_LIST then
      let r1 := buildInternalSelectList sl0 []
      let r2 := processGroupBys (sl0 :: rest) r1.2.1 [] rest
      Except.ok
        (r1.1,
         ASTNode.mk NodeType.T_GROUP_BY none none r2.2.1,
         ASTNode.mk ast.type ast.token ast.nodeId
           (ASTNode.mk NodeType.T_SELECT_LIST none none r2.1 :: r2.2.2))
    else Except.error (Abort.mk "getType() == T_SELECT_LIST")

/-- Embeds `QueryPlan::buildGroupBy`: compiles the rewritten outer select list and
the synthetic grouping container, asserts the group expression needs no
scratchpad, emits one placeholder column name per outer select-list entry,
and recurses into the child statement.  The second component is the state
of the caller's statement after the call: every rewrite in the source acts
on a deep copy, so the input tree is returned as-is. -/
def buildGroupByF (recur : ASTNode → Except Abort Plan) (C : Collabs)
    (ast : ASTNode) : Except Abort Plan × ASTNode :=
  match buildGroupByCore ast with
  | Except.error e => (Except.error e, ast)
  | Except.ok parts =>
    let select_list := parts.1
    let group_exprs := parts.2.1
    let child_ast := parts.2.2
    let select_scratchpad_len := C.scratch select_list
    let group_scratchpad_len := C.scratch group_exprs
    if group_scratchpad_len = 0 then
      match recur child_ast with
      | Except.error e => (Except.error e, ast)
      | Except.ok child =>
        (Except.ok (Plan.groupBy
            (select_list.children.map (fun _ => "unnamed"))
            (select_list, select_scratchpad_len)
            (group_exprs, group_scratchpad_len)
            select_scratchpad_len
            child),
         ast)
    else (Except.error (Abort.mk "group_scratchpad_len == 0"), ast)

/-! ## `QueryPlan::buildSeriesStatement` -/

/-- The number of entries in the nested select's select list (child 0 of
child 1), captured by `buildSeriesStatement` before any push-down. -/
def declaredAxisCount (ast : ASTNode) : Nat :=
  match ast.children with
  | _ :: selectAst :: _ =>
    match selectAst.children with
    | sl :: _ => sl.children.length
    | [] => 0
  | _ => 0

/-- Embeds the second half of `QueryPlan::buildSeriesStatement`: child 1 is the nested select, whose
child 0 must be a nonempty statement's select list (asserts); the series
name comes from child 0 — a T_SERIES_NAME node's token is copied into a
fresh T_LITERAL, any other name expression is deep-copied and pushed down
into the nested select list (mutating it in place, hence the rebuilt
`selectAst2` below); the nested plan is then built, the name expression is
compiled and must need no scratchpad (assert), and the output columns are
"series" followed by the nested plan's first `num_axes` columns. -/
def seriesFinish (recur : ASTNode → Except Abort Plan) (C : Collabs)
    (selectAst sl : ASTNode) (rest : List ASTNode) (num_axes : Nat)
    (nameExprAst : ASTNode) (slChildren : List ASTNode) :
    Except Abort Plan :=
  let selectAst2 := ASTNode.mk selectAst.type selectAst.token
    selectAst.nodeId
    (ASTNode.mk sl.type sl.token sl.nodeId slChildren :: rest)
  match recur selectAst2 with
  | Except.error e => Except.error e
  | Except.ok select =>
    let scratchpad_len := C.scratch nameExprAst
    if scratchpad_len = 0 then
      Except.ok (Plan.seriesStatement
        ("series" :: (Plan.getColumns select).take num_axes)
        (nameExprAst, scratchpad_len)
        select)
    else Except.error (Abort.mk "scratchpad_len == 0")

/-- Embeds `QueryPlan::buildSeriesStatement` proper (see `seriesFinish` for
the second half). -/
def buildSeriesStatementF (recur : ASTNode → Except Abort Plan)
    (C : Collabs) (ast : ASTNode) : Except Abort Plan :=
  match ast.children with
  | nameNode :: selectAst :: _ =>
    match selectAst.children with
    | [] => Except.error (Abort.mk "getChildren().size() > 0")
    | sl :: rest =>
      if sl.type = NodeType.T_SELECT_LIST then
        let num_axes := sl.children.length
        if nameNode.type = NodeType.T_SERIES_NAME then
          match nameNode.token with
          | none => Except.error (Abort.mk "null token copy")
          | some tok0 =>
            seriesFinish recur C selectAst sl rest num_axes
              (ASTNode.mk NodeType.T_LITERAL (some tok0) none [])
              sl.children
        else
          let r := buildInternalSelectList nameNode sl.children
          seriesFinish recur C selectAst sl rest num_axes r.1 r.2.1
      else Except.error (Abort.mk "getType() == T_SELECT_LIST")
  | _ => Except.error (Abort.mk "getChildren()[1] out of bounds")

/-! ## `QueryPlan::buildQueryPlan` (top-level dispatch) -/

/-- Embeds `QueryPlan::buildQueryPlan`, with a fuel parameter making the general
recursion (through the limit, group-by and series builders) structural;
exhausted fuel is a model artifact reported as an abort.  Dispatch order as
in the source: series, draw, limit clause, group-by (when a GROUP BY
clause is present or — short-circuit — an aggregate call appears in the
select list), table scan, tableless select; no case matching is
`assert(0)`. -/
def buildQueryPlan (C : Collabs) : Nat → ASTNode → Except Abort Plan
  | 0, _ => Except.error (Abort.mk "model: out of fuel")
  | fuel + 1, ast =>
    if ast.type = NodeType.T_SERIES then
      buildSeriesStatementF (buildQueryPlan C fuel) C ast
    else if ast.type = NodeType.T_DRAW then
      buildDrawStatement ast
    else
      match limitBuildF (buildQueryPlan C fuel) ast with
      | Except.error e => Except.error e
      | Except.ok (some exec) => Except.ok exec
      | Except.ok none =>
        if hasGroupByClause ast then
          (buildGroupByF (buildQueryPlan C fuel) C ast).1
        else
          match hasAggregationInSelectList C.symtab ast with
          | Except.error e => Except.error e
          | Except.ok true => (buildGroupByF (buildQueryPlan C fuel) C ast).1
          | Except.ok false =>
            match C.tableScanBuild ast with
            | some cols => Except.ok (Plan.tableScan cols)
            | none =>
              match C.tablelessBuild ast with
              | some cols => Except.ok (Plan.tablelessSelect cols)
              | none => Except.error (Abort.mk "cant build queryplan")

/-! ## Aggregate-free trees (for the grouping-key purity argument) -/

mutual
/-- No T_METHOD_CALL node occurs anywhere in the tree (so the expression
contains no function call at all, aggregate or otherwise). -/
def methodCallFree : ASTNode → Bool
  | ASTNode.mk t _ _ cs =>
    decide (t ≠ NodeType.T_METHOD_CALL) && methodCallFreeList cs

/-- Extends `methodCallFree` to a list of trees. -/
def methodCallFreeList : List ASTNode → Bool
  | [] => true
  | c :: cs => methodCallFree c && methodCallFreeList cs
end

/-- The grouping-key expressions of a statement: the children of its
T_GROUP_BY children, in order. -/
def groupingKeys (ast : ASTNode) : List ASTNode :=
  ((ast.children.filter (fun c => decide (c.type = NodeType.T_GROUP_BY))).map
    ASTNode.children).flatten

/-! ## metricdb HTTP handlers (`httpapi.cc`) -/

/-- The URL prefix constant `kMetricsUrlPrefix`. -/
def kMetricsUrlPrefix : String := "/metrics/"

def kStatusOK : Nat := 200
def kStatusCreated : Nat := 201
def kStatusBadRequest : Nat := 400
def kStatusNotFound : Nat := 404

/-- Embeds `util::URI::getParam`: the first query parameter with the given name.
Modelled from the spec: the URI helpers are outside the excerpt. -/
def getParam (params : List (String × String)) (key : String) :
    Option String :=
  (params.find? (fun p => p.1 == key)).map Prod.snd

/-- Embeds `MetricRepository::findMetric`. Modelled from the spec: the repository
is a collaborator mapping metric keys to their stored samples; absence is
`none`. -/
def findMetric {α : Type} (repo : List (String × List α)) (key : String) :
    Option (String × List α) :=
  repo.find? (fun m => m.1 == key)

/-- The samples stored under a key (empty when the metric is absent). -/
def samplesOf {α : Type} (repo : List (String × List α)) (key : String) :
    List α :=
  ((findMetric repo key).map Prod.snd).getD []

/-- Embeds `findOrCreateMetric` followed by `Metric::addSample`. Modelled from the
spec: the sample is appended to the metric's samples, the metric being
created when absent. -/
def addSample {α : Type} : List (String × List α) → String → α →
    List (String × List α)
  | [], key, v => [(key, [v])]
  | m :: rest, key, v =>
    if m.1 == key then (m.1, m.2 ++ [v]) :: rest
    else m :: addSample rest key v

/-- Embeds `HTTPAPI::insertSample`: the metric key is the path after the
"/metrics/" prefix; a key shorter than 3 characters is a 400, a missing or
unparseable `value` query parameter is a 400 (nothing stored in either
case), otherwise the parsed sample is added and the status is 201.  The
double parser (`std::stod`) is threaded as `parse`; the result is (status,
repository after the call). -/
def insertSample {α : Type} (parse : String → Option α)
    (repo : List (String × List α)) (path : String)
    (params : List (String × String)) : Nat × List (String × List α) :=
  let metric_key := path.drop kMetricsUrlPrefix.length
  if metric_key.length < 3 then (kStatusBadRequest, repo)
  else
    match getParam params "value" with
    | none => (kStatusBadRequest, repo)
    | some value_str =>
      match parse value_str with
      | none => (kStatusBadRequest, repo)
      | some v => (kStatusCreated, addSample repo metric_key v)

/-- Embeds `HTTPAPI::renderMetricSampleScan`, restricted to its response status: a
key shorter than 3 characters is a 400 (before the repository is
consulted), an unknown key is a 404, otherwise the sample scan renders
with a 200. -/
def renderMetricSampleScan {α : Type} (repo : List (String × List α))
    (path : String) : Nat :=
  let metric_key := path.drop kMetricsUrlPrefix.length
  if metric_key.length < 3 then kStatusBadRequest
  else
    match findMetric repo metric_key with
    | none => kStatusNotFound
    | some _ => kStatusOK

/-! ## Concrete fixtures used by the witness theorems -/

/-- An identifier token for the column `k`. -/
def tokK : Token := Token.mk TokenType.T_IDENTIFIER "k"

/-- A bare column reference `k`. -/
def colK : ASTNode := ASTNode.mk NodeType.T_COLUMN_NAME (some tokK) none []

/-- A derived column wrapping `k` (a select-list entry). -/
def derivedK : ASTNode := ASTNode.mk NodeType.T_DERIVED_COLUMN none none [colK]

/-- A FROM-shaped second child, so the statements below have two children. -/
def fromNode : ASTNode :=
  ASTNode.mk NodeType.T_FROM none none
    [ASTNode.mk NodeType.T_TABLE_NAME
      (some (Token.mk TokenType.T_IDENTIFIER "m")) none []]

/-- Concrete collaborators: `avg` is the only aggregate symbol, every
compilation reports zero scratch slots, and the table-scan leaf builder
applies to everything with columns `c0, c1`. -/
def sampleCollabs : Collabs where
  symtab := fun s =>
    if s = "avg" then some (Symbol.mk true) else some (Symbol.mk false)
  scratch := fun _ => 0
  tableScanBuild := fun _ => some ["c0", "c1"]
  tablelessBuild := fun _ => none

/-- A recursion stub standing for the child plan build. -/
def recurStub : ASTNode → Except Abort Plan :=
  fun _ => Except.ok (Plan.tableScan ["c0", "c1"])

/-- The statement tree for `select k from m group by k`. -/
def gbAst : ASTNode :=
  ASTNode.mk NodeType.T_SELECT none none
    [ASTNode.mk NodeType.T_SELECT_LIST none none [derivedK],
     fromNode,
     ASTNode.mk NodeType.T_GROUP_BY none none [colK]]

/-- The statement tree for `select k from m`: no grouping, no aggregates. -/
def plainSelectAst : ASTNode :=
  ASTNode.mk NodeType.T_SELECT none none
    [ASTNode.mk NodeType.T_SELECT_LIST none none [derivedK],
     fromNode]

/-- A two-axis nested select for a SERIES statement. -/
def nestedSelectAst : ASTNode :=
  ASTNode.mk NodeType.T_SELECT none none
    [ASTNode.mk NodeType.T_SELECT_LIST none none [derivedK, derivedK],
     fromNode]

/-- A SERIES statement with a literal series name and the nested select. -/
def seriesAst : ASTNode :=
  ASTNode.mk NodeType.T_SERIES none none
    [ASTNode.mk NodeType.T_SERIES_NAME
      (some (Token.mk TokenType.T_IDENTIFIER "s1")) none [],
     nestedSelectAst]

/-- A concrete value parser for the witnesses: only "3.5" parses (to the
stand-in sample value 35). -/
def parse35 : String → Option Nat :=
  fun s => if s = "3.5" then some 35 else none

/-- The plan `buildGroupBy` produces for `gbAst` under `sampleCollabs` and
`recurStub`: the child select list got one derived column per reference
(indices 0 for the select-list `k`, 1 for the grouping `k`). -/
def gbPlan0 : Plan :=
  Plan.groupBy ["unnamed"]
    (ASTNode.mk NodeType.T_SELECT_LIST none none
      [ASTNode.mk NodeType.T_DERIVED_COLUMN none none
        [ASTNode.mk NodeType.T_RESOLVED_COLUMN (some tokK) (some 0) []]], 0)
    (ASTNode.mk NodeType.T_GROUP_BY none none
      [ASTNode.mk NodeType.T_RESOLVED_COLUMN (some tokK) (some 1) []], 0)
    0
    (Plan.tableScan ["c0", "c1"])

/-- The rewritten parts `buildGroupByCore` produces for `gbAst`. -/
def gbParts0 : ASTNode × ASTNode × ASTNode :=
  (ASTNode.mk NodeType.T_SELECT_LIST none none
    [ASTNode.mk NodeType.T_DERIVED_COLUMN none none
      [ASTNode.mk NodeType.T_RESOLVED_COLUMN (some tokK) (some 0) []]],
   ASTNode.mk NodeType.T_GROUP_BY none none
    [ASTNode.mk NodeType.T_RESOLVED_COLUMN (some tokK) (some 1) []],
   ASTNode.mk NodeType.T_SELECT none none
    [ASTNode.mk NodeType.T_SELECT_LIST none none [derivedK, derivedK],
     fromNode])

/-! ## Push-down lemmas -/

mutual
/-- The push-down `buildInternalSelectList` reports success on every input. -/
theorem buildISL_ok : ∀ (node : ASTNode) (target : List ASTNode),
    (buildInternalSelectList node target).2.2 = true
  | ASTNode.mk t tok idx cs, target => by
    rw [buildInternalSelectList]
    split
    · simp
    · simpa using pushChildren_ok cs target

/-- The child fold of the push-down reports success on every input. -/
theorem pushChildren_ok : ∀ (cs : List ASTNode) (target : List ASTNode),
    (pushDownChildren cs target).2.2 = true
  | [], target => by rw [pushDownChildren]
  | c :: cs, target => by
    rw [pushDownChildren]
    simp only [buildISL_ok c target, if_true]
    simpa using pushChildren_ok cs (buildInternalSelectList c target).2.1
end

/-! ## Claim theorems -/

/-- C9: for every input node and target select list, the push-down
(`buildInternalSelectList`) returns success; the failure value is
unreachable. -/
theorem claim9_push_down_never_fails (node : ASTNode)
    (target : List ASTNode) :
    (buildInternalSelectList node target).2.2 = true :=
  buildISL_ok node target

/-- C1: on a T_COLUMN_NAME node the push-down appends exactly one new
T_DERIVED_COLUMN node (wrapping a clone of the column node) at the end of
the target select list — the de-duplication search being a no-op — and
rewrites the node to T_RESOLVED_COLUMN with resolved index the new last
position of the target list; on a node of any other tag it recurses into
every child in order (the `pushDownChildren` fold). -/
theorem claim1_push_down_column_case (node : ASTNode)
    (target : List ASTNode) :
    (node.type = NodeType.T_COLUMN_NAME →
      buildInternalSelectList node target =
        (ASTNode.mk NodeType.T_RESOLVED_COLUMN node.token
           (some (target.length : Int)) node.children,
         target ++ [ASTNode.mk NodeType.T_DERIVED_COLUMN none none [node]],
         true)) ∧
    (node.type ≠ NodeType.T_COLUMN_NAME →
      buildInternalSelectList node target =
        (ASTNode.mk node.type node.token node.nodeId
           (pushDownChildren node.children target).1,
         (pushDownChildren node.children target).2.1,
         (pushDownChildren node.children target).2.2)) := by
  obtain ⟨t, tok, idx, cs⟩ := node
  simp only [ASTNode.type, ASTNode.token, ASTNode.nodeId, ASTNode.children]
  constructor
  · intro h
    subst h
    rw [buildInternalSelectList]
    simp only [if_pos rfl]
    norm_num
  · intro h
    rw [buildInternalSelectList]
    rw [if_neg h]

/-- C1 witness: pushing the column reference `k` down into a target select
list already holding one entry appends a single derived column and
resolves the reference to index 1. -/
theorem claim1_witness :
    buildInternalSelectList colK [derivedK] =
      (ASTNode.mk NodeType.T_RESOLVED_COLUMN (some tokK) (some 1) [],
       [derivedK, ASTNode.mk NodeType.T_DERIVED_COLUMN none none [colK]],
       true) :=
  (claim1_push_down_column_case colK [derivedK]).1 rfl

/-- C5: the push-down is deterministic: on two structurally equal source
expressions and two independent, initially empty target select lists it
produces target lists of equal length with pairwise equal entries in the
same order, and assigns the same resolved indices (equal rewritten
nodes). -/
theorem claim5_push_down_deterministic (e1 e2 : ASTNode) (h : e1 = e2) :
    ((buildInternalSelectList e1 []).2.1).length =
      ((buildInternalSelectList e2 []).2.1).length ∧
    (buildInternalSelectList e1 []).2.1 =
      (buildInternalSelectList e2 []).2.1 ∧
    (buildInternalSelectList e1 []).1 = (buildInternalSelectList e2 []).1 := by
  subst h
  exact ⟨rfl, rfl, rfl⟩

/-- C5 witness: two runs on (equal copies of) the grouped select statement
tree agree on the produced target list and on the rewritten tree. -/
theorem claim5_witness :
    ((buildInternalSelectList gbAst []).2.1).length =
      ((buildInternalSelectList gbAst []).2.1).length ∧
    (buildInternalSelectList gbAst []).2.1 =
      (buildInternalSelectList gbAst []).2.1 ∧
    (buildInternalSelectList gbAst []).1 =
      (buildInternalSelectList gbAst []).1 :=
  claim5_push_down_deterministic gbAst gbAst rfl

/-- C4: `buildGroupBy` leaves the caller's statement untouched — the state
of the input tree after the call equals the input, and in particular the
select-list subtree (child 0) is unchanged; all rewriting happens on deep
copies. -/
theorem claim4_group_by_preserves_input (recur : ASTNode → Except Abort Plan)
    (C : Collabs) (ast : ASTNode) :
    (buildGroupByF recur C ast).2 = ast ∧
    ((buildGroupByF recur C ast).2).children.head? = ast.children.head? := by
  have h : (buildGroupByF recur C ast).2 = ast := by
    rw [buildGroupByF]
    rcases buildGroupByCore ast with e | parts
    · rfl
    · simp only
      split
      · rcases recur parts.2.2 with e | child <;> rfl
      · rfl
  exact ⟨h, by rw [h]⟩

/-- C2: for a statement that is neither a SERIES nor a DRAW node, has no
LIMIT clause, no GROUP BY clause, and no aggregate call in its select
list, `buildQueryPlan` never returns a GroupBy plan node. -/
theorem claim2_no_group_by_without_grouping (C : Collabs) (fuel : Nat)
    (ast : ASTNode) (p : Plan)
    (hs : ast.type ≠ NodeType.T_SERIES)
    (hd : ast.type ≠ NodeType.T_DRAW)
    (hl : hasLimitClause ast = false)
    (hg : hasGroupByClause ast = false)
    (ha : hasAggregationInSelectList C.symtab ast = Except.ok false)
    (hb : buildQueryPlan C fuel ast = Except.ok p) :
    Plan.isGroupBy p = false := by
  cases fuel with
  | zero => simp [buildQueryPlan] at hb
  | succ fuel =>
    rw [buildQueryPlan] at hb
    rw [if_neg hs, if_neg hd] at hb
    have hlb : limitBuildF (buildQueryPlan C fuel) ast = Except.ok none := by
      rw [limitBuildF, hl]
      rfl
    rw [hlb] at hb
    simp only [hg, ha, Bool.false_eq_true, if_false] at hb
    rcases hts : C.tableScanBuild ast with _ | cols
    · rw [hts] at hb
      rcases htl : C.tablelessBuild ast with _ | cols2
      · rw [htl] at hb
        simp at hb
      · rw [htl] at hb
        simp only [Except.ok.injEq] at hb
        rw [← hb]
        rfl
    · rw [hts] at hb
      simp only [Except.ok.injEq] at hb
      rw [← hb]
      rfl

/-- C2 witness: the plain `select k from m` statement builds to a table
scan, not a GroupBy. -/
theorem claim2_witness :
    Plan.isGroupBy (Plan.tableScan ["c0", "c1"]) = false :=
  claim2_no_group_by_without_grouping sampleCollabs 1 plainSelectAst
    (Plan.tableScan ["c0", "c1"])
    (by decide) (by decide) (by decide) (by decide) rfl rfl

/-- C6: a SERIES statement that builds successfully yields a
SeriesStatement plan whose output columns are the literal "series"
followed by the first `declaredAxisCount` output columns of the nested
plan, in order (`List.take` truncates at the nested plan's column
count). -/
theorem claim6_series_output_columns (recur : ASTNode → Except Abort Plan)
    (C : Collabs) (ast : ASTNode) (p : Plan)
    (h : buildSeriesStatementF recur C ast = Except.ok p) :
    ∃ cols nameExpr child, p = Plan.seriesStatement cols nameExpr child ∧
      cols = "series" ::
        (Plan.getColumns child).take (declaredAxisCount ast) := by
  rw [buildSeriesStatementF] at h
  rcases hce : ast.children with _ | ⟨nameNode, _ | ⟨selectAst, restc⟩⟩
  · rw [hce] at h
    simp at h
  · rw [hce] at h
    simp at h
  · rw [hce] at h
    simp only at h
    rcases hsc : selectAst.children with _ | ⟨sl, rest⟩
    · rw [hsc] at h
      simp at h
    · rw [hsc] at h
      simp only at h
      by_cases hslt : sl.type = NodeType.T_SELECT_LIST
      · rw [if_pos hslt] at h
        have hax : declaredAxisCount ast = sl.children.length := by
          simp only [declaredAxisCount, hce, hsc]
        by_cases hnt : nameNode.type = NodeType.T_SERIES_NAME
        · rw [if_pos hnt] at h
          rcases hntk : nameNode.token with _ | tok0
          · rw [hntk] at h
            simp at h
          · rw [hntk] at h
            simp only at h
            rw [seriesFinish] at h
            rcases hrec : recur (ASTNode.mk selectAst.type selectAst.token
                selectAst.nodeId (ASTNode.mk sl.type sl.token sl.nodeId
                  sl.children :: rest)) with e | select
            · rw [hrec] at h
              simp at h
            · rw [hrec] at h
              simp only at h
              split at h
              · simp only [Except.ok.injEq] at h
                refine ⟨_, _, select, h.symm, ?_⟩
                rw [hax]
              · simp at h
        · rw [if_neg hnt] at h
          rw [seriesFinish] at h
          rcases hrec : recur (ASTNode.mk selectAst.type selectAst.token
              selectAst.nodeId (ASTNode.mk sl.type sl.token sl.nodeId
                (buildInternalSelectList nameNode sl.children).2.1 :: rest))
            with e | select
          · rw [hrec] at h
            simp at h
          · rw [hrec] at h
            simp only at h
            split at h
            · simp only [Except.ok.injEq] at h
              refine ⟨_, _, select, h.symm, ?_⟩
              rw [hax]
            · simp at h
      · rw [if_neg hslt] at h
        simp at h

/-- C6 witness: the two-axis SERIES fixture builds to output columns
["series", "c0", "c1"]. -/
theorem claim6_witness :
    ∃ cols nameExpr child,
      Plan.seriesStatement ["series", "c0", "c1"]
        (ASTNode.mk NodeType.T_LITERAL
          (some (Token.mk TokenType.T_IDENTIFIER "s1")) none [], 0)
        (Plan.tableScan ["c0", "c1"]) =
        Plan.seriesStatement cols nameExpr child ∧
      cols = "series" ::
        (Plan.getColumns child).take (declaredAxisCount seriesAst) :=
  claim6_series_output_columns recurStub sampleCollabs seriesAst
    (Plan.seriesStatement ["series", "c0", "c1"]
      (ASTNode.mk NodeType.T_LITERAL
        (some (Token.mk TokenType.T_IDENTIFIER "s1")) none [], 0)
      (Plan.tableScan ["c0", "c1"]))
    rfl

/-- C7 (code-bug evidence): `buildDrawStatement` maps the chart tokens
bar, line and area to the corresponding chart types, but a token outside
that closed set (here: pie) reaches the switch default, which is the
process abort `assert(888 == 0)` (`// FIXPAUL add error`) rather than a
typed UnsupportedChartType result. -/
theorem claim7_draw_statement_behaviour :
    buildDrawStatement (ASTNode.mk NodeType.T_DRAW
        (some (Token.mk TokenType.T_BAR "bar")) none []) =
      Except.ok (Plan.drawStatement DrawStatementType.T_BAR_CHART) ∧
    buildDrawStatement (ASTNode.mk NodeType.T_DRAW
        (some (Token.mk TokenType.T_LINE "line")) none []) =
      Except.ok (Plan.drawStatement DrawStatementType.T_LINE_CHART) ∧
    buildDrawStatement (ASTNode.mk NodeType.T_DRAW
        (some (Token.mk TokenType.T_AREA "area")) none []) =
      Except.ok (Plan.drawStatement DrawStatementType.T_AREA_CHART) ∧
    buildDrawStatement (ASTNode.mk NodeType.T_DRAW
        (some (Token.mk TokenType.T_PIE "pie")) none []) =
      Except.error (Abort.mk "888 == 0") :=
  ⟨rfl, rfl, rfl, rfl⟩

/-! ## Method-call-free trees are preserved by the push-down -/

theorem methodCallFreeList_append (xs ys : List ASTNode) :
    methodCallFreeList (xs ++ ys) =
      (methodCallFreeList xs && methodCallFreeList ys) := by
  induction xs with
  | nil => simp [methodCallFreeList]
  | cons c cs ih => simp [methodCallFreeList, ih, Bool.and_assoc]

theorem methodCallFreeList_iff (xs : List ASTNode) :
    methodCallFreeList xs = true ↔ ∀ x ∈ xs, methodCallFree x = true := by
  induction xs with
  | nil => simp [methodCallFreeList]
  | cons c cs ih => simp [methodCallFreeList, ih]

mutual
/-- The push-down never introduces a T_METHOD_CALL node (it only retags
column references and wraps copies of them). -/
theorem buildISL_methodCallFree : ∀ (node : ASTNode)
    (target : List ASTNode), methodCallFree node = true →
    methodCallFree (buildInternalSelectList node target).1 = true
  | ASTNode.mk t tok idx cs, target => by
    intro hmc
    rw [methodCallFree] at hmc
    simp only [Bool.and_eq_true] at hmc
    rw [buildInternalSelectList]
    split
    · norm_num
      rw [methodCallFree]
      simp only [Bool.and_eq_true]
      exact ⟨by decide, hmc.2⟩
    · simp only
      rw [methodCallFree]
      simp only [Bool.and_eq_true]
      exact ⟨hmc.1, pushChildren_methodCallFree cs target hmc.2⟩

/-- The lemma `buildISL_methodCallFree` for the child fold. -/
theorem pushChildren_methodCallFree : ∀ (cs : List ASTNode)
    (target : List ASTNode), methodCallFreeList cs = true →
    methodCallFreeList (pushDownChildren cs target).1 = true
  | [], target => by
    intro hmc
    rw [pushDownChildren]
    rfl
  | c :: cs, target => by
    intro hmc
    rw [methodCallFreeList] at hmc
    simp only [Bool.and_eq_true] at hmc
    rw [pushDownChildren]
    simp only [buildISL_ok c target, if_true]
    rw [methodCallFreeList]
    simp only [Bool.and_eq_true]
    exact ⟨buildISL_methodCallFree c target hmc.1,
           pushChildren_methodCallFree cs _ hmc.2⟩
end

/-- Pushing down method-call-free grouping expressions keeps the collected
group-expression container method-call-free. -/
theorem pushGroupExprs_methodCallFree (ges : List ASTNode) :
    ∀ (slc acc : List ASTNode), methodCallFreeList ges = true →
    methodCallFreeList acc = true →
    methodCallFreeList (pushGroupExprs ges slc acc).2 = true := by
  induction ges with
  | nil =>
    intro slc acc _ ha
    rw [pushGroupExprs]
    exact ha
  | cons ge ges ih =>
    intro slc acc hg ha
    rw [methodCallFreeList] at hg
    simp only [Bool.and_eq_true] at hg
    rw [pushGroupExprs]
    refine ih _ _ hg.2 ?_
    rw [methodCallFreeList_append]
    simp only [methodCallFreeList, Bool.and_eq_true]
    exact ⟨ha, buildISL_methodCallFree ge slc hg.1, trivial⟩

/-- The group-by loop only collects pushed-down copies of grouping
expressions, so with method-call-free grouping keys the collected
container stays method-call-free. -/
theorem processGroupBys_methodCallFree (cs : List ASTNode) :
    ∀ (slc acc tail : List ASTNode),
    (∀ c ∈ cs, c.type = NodeType.T_GROUP_BY →
      methodCallFreeList c.children = true) →
    methodCallFreeList acc = true →
    methodCallFreeList (processGroupBys cs slc acc tail).2.1 = true := by
  induction cs with
  | nil =>
    intro slc acc tail _ ha
    rw [processGroupBys]
    exact ha
  | cons c cs ih =>
    intro slc acc tail hk ha
    rw [processGroupBys]
    split
    next hct =>
      exact ih _ _ _ (fun x hx => hk x (List.mem_cons_of_mem _ hx))
        (pushGroupExprs_methodCallFree c.children _ _
          (hk c (List.mem_cons_self _ _) hct) ha)
    next hct =>
      exact ih _ _ _ (fun x hx => hk x (List.mem_cons_of_mem _ hx)) ha

/-- C3: (enforcement) whenever `buildGroupBy` returns a plan, the plan is a
GroupBy whose compiled group expression has zero scratch slots; and
(unreachability of the violating branch) when the expression compiler
gives zero scratch slots to every method-call-free expression and the
statement's grouping keys are method-call-free, the compiled group
container needs zero scratch slots, so the group-scratchpad assertion
cannot fire.  (`select_expr`'s scratch slots are unconstrained.) -/
theorem claim3_group_expr_scratch_zero (recur : ASTNode → Except Abort Plan)
    (C : Collabs) (ast : ASTNode) :
    (∀ p a, buildGroupByF recur C ast = (Except.ok p, a) →
      ∃ cols se ge ss child,
        p = Plan.groupBy cols se ge ss child ∧ ge.2 = 0) ∧
    ((∀ e, methodCallFree e = true → C.scratch e = 0) →
     (∀ k ∈ groupingKeys ast, methodCallFree k = true) →
     ∀ parts, buildGroupByCore ast = Except.ok parts →
       C.scratch parts.2.1 = 0) := by
  constructor
  · intro p a hba
    rw [buildGroupByF] at hba
    rcases hcore : buildGroupByCore ast with e | parts
    · rw [hcore] at hba
      simp at hba
    · rw [hcore] at hba
      simp only at hba
      split at hba
      next hgz =>
        rcases hrec : recur parts.2.2 with e | child
        · rw [hrec] at hba
          simp at hba
        · rw [hrec] at hba
          simp only [Prod.mk.injEq, Except.ok.injEq] at hba
          exact ⟨_, _, _, _, child, hba.1.symm, hgz⟩
      next hgz => simp at hba
  · intro hcomp hkeys parts hcore
    apply hcomp
    rw [buildGroupByCore] at hcore
    rcases hch : ast.children with _ | ⟨sl0, rest⟩
    · rw [hch] at hcore
      simp at hcore
    · rw [hch] at hcore
      simp only at hcore
      split at hcore
      · simp only [Except.ok.injEq] at hcore
        rw [← hcore]
        rw [methodCallFree]
        simp only [Bool.and_eq_true]
        refine ⟨by decide, ?_⟩
        refine processGroupBys_methodCallFree _ _ _ _ ?_ rfl
        intro c hc hct
        rw [methodCallFreeList_iff]
        intro k hkm
        apply hkeys
        rw [groupingKeys, hch]
        simp only [List.mem_flatten, List.mem_map, List.mem_filter,
          decide_eq_true_eq]
        exact ⟨c.children, ⟨c, ⟨hc, hct⟩, rfl⟩, hkm⟩
      · simp at hcore

/-- C3 witness: on `select k from m group by k` with the zero-scratch
compiler, `buildGroupBy` yields the GroupBy plan `gbPlan0` whose group
expression has zero scratch slots, and the compiled group container of the
core rewrite needs zero scratch slots. -/
theorem claim3_witness :
    (∃ cols se ge ss child,
      gbPlan0 = Plan.groupBy cols se ge ss child ∧ ge.2 = 0) ∧
    sampleCollabs.scratch gbParts0.2.1 = 0 :=
  ⟨(claim3_group_expr_scratch_zero recurStub sampleCollabs gbAst).1
      gbPlan0 gbAst rfl,
   (claim3_group_expr_scratch_zero recurStub sampleCollabs gbAst).2
      (fun _ _ => rfl) (by decide) gbParts0 rfl⟩

/-! ## HTTP handler lemmas and claims -/

theorem samplesOf_addSample_self {α : Type} (repo : List (String × List α))
    (key : String) (v : α) :
    samplesOf (addSample repo key v) key = samplesOf repo key ++ [v] := by
  induction repo with
  | nil => simp [addSample, samplesOf, findMetric]
  | cons m rest ih =>
    by_cases h : m.1 = key
    · simp [addSample, samplesOf, findMetric, h]
    · simp only [addSample, samplesOf, findMetric] at ih ⊢
      simp [h, ih]

theorem samplesOf_addSample_other {α : Type} (repo : List (String × List α))
    (key k : String) (v : α) (hne : k ≠ key) :
    samplesOf (addSample repo key v) k = samplesOf repo k := by
  induction repo with
  | nil => simp [addSample, samplesOf, findMetric, Ne.symm hne]
  | cons m rest ih =>
    by_cases h : m.1 = key
    · simp [addSample, samplesOf, findMetric, h, hne, Ne.symm hne]
    · simp only [addSample, samplesOf, findMetric] at ih ⊢
      by_cases h2 : m.1 = k
      · simp [h, h2, hne]
      · simp [h, h2, ih]

/-- C8: `insertSample` on `POST /metrics/{key}?value=V` — a key (the path
after "/metrics/") shorter than 3 characters gives a 400 with the
repository unchanged; with a valid key, a missing or unparseable `value`
parameter gives a 400 with the repository unchanged; otherwise the status
is 201, the parsed sample is appended to that metric's samples (the metric
being created if absent), and every other metric is untouched. -/
theorem claim8_insert_sample (α : Type) (parse : String → Option α)
    (repo : List (String × List α)) (path : String)
    (params : List (String × String)) :
    ((path.drop kMetricsUrlPrefix.length).length < 3 →
      insertSample parse repo path params = (400, repo)) ∧
    (¬ (path.drop kMetricsUrlPrefix.length).length < 3 →
      ((getParam params "value").bind parse = none →
        insertSample parse repo path params = (400, repo)) ∧
      (∀ v, (getParam params "value").bind parse = some v →
        (insertSample parse repo path params).1 = 201 ∧
        samplesOf (insertSample parse repo path params).2
            (path.drop kMetricsUrlPrefix.length) =
          samplesOf repo (path.drop kMetricsUrlPrefix.length) ++ [v] ∧
        ∀ k, k ≠ path.drop kMetricsUrlPrefix.length →
          samplesOf (insertSample parse repo path params).2 k =
            samplesOf repo k)) := by
  constructor
  · intro hshort
    rw [insertSample]
    simp only [if_pos hshort]
    rfl
  · intro hlong
    constructor
    · intro hnone
      rw [insertSample]
      simp only [if_neg hlong]
      rcases hgp : getParam params "value" with _ | s
      · rfl
      · rw [hgp] at hnone
        simp only [Option.some_bind] at hnone
        simp only [hnone]
        rfl
    · intro v hv
      rcases hgp : getParam params "value" with _ | s
      · rw [hgp] at hv
        simp at hv
      · rw [hgp] at hv
        simp only [Option.some_bind] at hv
        rw [insertSample]
        simp only [if_neg hlong, hgp, hv]
        exact ⟨rfl, samplesOf_addSample_self repo _ v,
          fun k hk => samplesOf_addSample_other repo _ k v hk⟩

/-- C8 witness: the spec's three regression cases — key "ab" (length 2)
gives 400 and stores nothing; key "abc" with unparseable value gives 400
and stores nothing; key "abc" with value "3.5" gives 201 and appends one
sample under "abc". -/
theorem claim8_witness :
    insertSample parse35 [] "/metrics/ab" [("value", "3.5")] = (400, []) ∧
    insertSample parse35 [] "/metrics/abc" [("value", "bogus")] = (400, []) ∧
    ((insertSample parse35 [] "/metrics/abc" [("value", "3.5")]).1 = 201 ∧
     samplesOf (insertSample parse35 [] "/metrics/abc"
        [("value", "3.5")]).2 ("/metrics/abc".drop 9) =
       samplesOf ([] : List (String × List Nat)) ("/metrics/abc".drop 9) ++
         [35] ∧
     ∀ k, k ≠ "/metrics/abc".drop 9 →
       samplesOf (insertSample parse35 [] "/metrics/abc"
          [("value", "3.5")]).2 k =
         samplesOf ([] : List (String × List Nat)) k) :=
  ⟨(claim8_insert_sample Nat parse35 [] "/metrics/ab"
      [("value", "3.5")]).1 (by decide),
   ((claim8_insert_sample Nat parse35 [] "/metrics/abc"
      [("value", "bogus")]).2 (by decide)).1 (by decide),
   ((claim8_insert_sample Nat parse35 [] "/metrics/abc"
      [("value", "3.5")]).2 (by decide)).2 35 (by decide)⟩

/-- C10: a GET sample scan whose key (the path after "/metrics/") is
shorter than 3 characters answers 400 for every repository state — in
particular it never answers 404 and its response does not depend on (so
does not require consulting) the metric repository. -/
theorem claim10_short_key_scan_is_400 (α : Type) (path : String)
    (hshort : (path.drop kMetricsUrlPrefix.length).length < 3) :
    ∀ (repo : List (String × List α)),
      renderMetricSampleScan repo path = 400 ∧
      renderMetricSampleScan repo path ≠ 404 := by
  intro repo
  rw [renderMetricSampleScan]
  simp only [if_pos hshort]
  exact ⟨rfl, by decide⟩

/-- C10 witness: `GET /metrics/ab` answers 400 even on a repository that
contains a metric stored under the key "ab". -/
theorem claim10_witness :
    renderMetricSampleScan [("ab", [(1 : Nat)])] "/metrics/ab" = 400 ∧
    renderMetricSampleScan [("ab", [(1 : Nat)])] "/metrics/ab" ≠ 404 :=
  claim10_short_key_scan_is_400 Nat "/metrics/ab" (by decide)
    [("ab", [(1 : Nat)])]

end FnordMetric
